import Mathlib

/-!
Verification of the cv-tool image viewer/editor core: the navigation state
machine in main.py and the transform/staging engine in utils/cv.py, shallowly
embedded in Lean.  Paths and other Python strings are modelled as lists of
characters, images as lists of pixel rows, the process file system as an
association list from paths to file contents, and Python exceptions as an
explicit error type on the result.  Machine indices are natural numbers: every
index in the program is produced by `isdigit`-validated parsing or by guarded
decrements, so it is never negative.
-/

namespace CvTool

/-- Pixel values are abstract codes; the transforms under verification
(crop, rotate, flip) move pixels without inspecting them. -/
abbrev Pixel := Nat

/-- An image is a list of rows, each row a list of pixels (the NumPy array
`frame` of cv.py).  `frame.shape = (rows, cols, channels)`. -/
abbrev Image := List (List Pixel)

/-- A file-system path, modelled as its character list. -/
abbrev Path := List Char

/-- Contents of a file on disk: either an image that `cv2.imread` can decode,
or bytes it cannot (a corrupt or non-image file).  Encoding is modelled as
lossless. -/
inductive FileData
  | img (i : Image)
  | corrupt
deriving DecidableEq

/-- The file system visible to the program: an association list from paths to
file data.  Writes prepend, so the most recent write at a path shadows older
ones. -/
abbrev FileSystem := List (Path × FileData)

/-- Look a path up in the file system (most recent write wins). -/
def lookupFS : FileSystem → Path → Option FileData
  | [], _ => none
  | (q, d) :: rest, p => if p = q then some d else lookupFS rest p

/-- Model of `cv2.imread`: returns the decoded image, or `none` (Python
`None`) when the file is missing or cannot be decoded.  `cv2.imread` never
raises; failure is only visible as the `None` result. -/
def imread (fs : FileSystem) (p : Path) : Option Image :=
  match lookupFS fs p with
  | some (FileData.img i) => some i
  | _ => none

/-- Python exceptions that the embedded code can raise.
`indexError`: list subscript out of range;
`attributeError`: attribute access on `None` (e.g. `None.shape` in
`set_cropped`); `cv2Error`: an OpenCV call on a `None` frame
(`cvtColor`, `resize`, `imwrite`); `npError`: a NumPy call on a `None` frame
(`rot90`, `flipud`, `fliplr`). -/
inductive PyError
  | indexError
  | attributeError
  | cv2Error
  | npError
deriving DecidableEq

/-- State of the `ImageManager` of cv.py together with the file system it
works on.  `temp_file_path` is the single staged-artifact slot. -/
structure EngineState where
  fs : FileSystem
  temp_file_path : Option Path
deriving DecidableEq

/-- Model of `ImageManager._save_temp_image`: write the image to a fresh
temporary file and point `temp_file_path` at it.  The fresh name chosen by
`tempfile.NamedTemporaryFile` is passed in as `tempName`. -/
def save_temp_image (s : EngineState) (tempName : Path) (image : Image) : EngineState :=
  { fs := (tempName, FileData.img image) :: s.fs, temp_file_path := some tempName }

/-- Row count of a frame: `frame.shape[0]`. -/
def shape0 (frame : Image) : Nat := frame.length

/-- Column count of a frame: `frame.shape[1]` (cv2 images are rectangular, so
the first row's length is the width). -/
def shape1 (frame : Image) : Nat := (frame.headD []).length

/-- Python list slicing `l[a:b]` for `0 <= a, b` (out-of-range bounds clamp,
and `a >= b` yields the empty list, exactly as `(l.take b).drop a` does). -/
def pySlice (l : List α) (a b : Nat) : List α := (l.take b).drop a

/-- NumPy sub-rectangle `frame[r0:r1, c0:c1]`. -/
def cropSlice (frame : Image) (r0 r1 c0 c1 : Nat) : Image :=
  (pySlice frame r0 r1).map (fun row => pySlice row c0 c1)

/-- Model of `ImageManager.set_cropped` (cv.py lines 30-56).  `settings` is
the four-element list built by the caller, destructured by the source as
`s_x, s_y, e_x, e_y = settings`.  The Python bound checks `0 <= s_x` and
`0 <= s_y` are trivially true over `Nat` (the caller admits only
`isdigit` input).  When `imread` returns `None`, the source evaluates
`frame.shape[1]` inside the bounds test and raises `AttributeError`. -/
def set_cropped (s : EngineState) (supported_files : List Path) (current_index : Nat)
    (settings : Nat × Nat × Nat × Nat) (tempName : Path) : Except PyError EngineState :=
  match supported_files.get? current_index with
  | none => Except.error PyError.indexError
  | some input_file =>
    match imread s.fs input_file with
    | none => Except.error PyError.attributeError
    | some frame =>
      let (s_x, s_y, e_x, e_y) := settings
      if s_x < e_x ∧ e_x ≤ shape1 frame ∧ s_y < e_y ∧ e_y ≤ shape0 frame then
        Except.ok (save_temp_image s tempName (cropSlice frame s_y e_y s_x e_x))
      else
        Except.ok s

/-- Model of `ImageManager.set_resize` (cv.py lines 58-84).  The
interpolation kernel of `cv2.resize` is collaborator floating-point numerics,
taken as the parameter `cv2resize`.  The dimension check runs before the
frame is touched, so an undecodable source with invalid dimensions is
skipped without raising; with valid dimensions `cv2.resize(None, ...)`
raises `cv2.error`.  Over `Nat`, `width <= 0` is `width = 0`. -/
def set_resize (cv2resize : Image → Nat → Nat → Image) (s : EngineState)
    (supported_files : List Path) (current_index : Nat)
    (settings : Nat × Nat) (tempName : Path) : Except PyError EngineState :=
  match supported_files.get? current_index with
  | none => Except.error PyError.indexError
  | some input_file =>
    let decoded := imread s.fs input_file
    let (width, height) := settings
    if width = 0 ∨ height = 0 then
      Except.ok s
    else
      match decoded with
      | none => Except.error PyError.cv2Error
      | some frame => Except.ok (save_temp_image s tempName (cv2resize frame width height))

/-- Model of `ImageManager.set_brightness` (cv.py lines 86-111).  The body
after decoding (BGR→HSV conversion, scaling of the value channel by the
factor list with per-pixel clamp to [0,255], HSV→BGR conversion, lines
105-108) is collaborator floating-point numerics, taken as the parameter
`hsvValueScale`.  `cv2.cvtColor(None, ...)` raises `cv2.error`. -/
def set_brightness (hsvValueScale : Image → List Float → Image) (s : EngineState)
    (supported_files : List Path) (current_index : Nat)
    (settings : List Float) (tempName : Path) : Except PyError EngineState :=
  match supported_files.get? current_index with
  | none => Except.error PyError.indexError
  | some input_file =>
    match imread s.fs input_file with
    | none => Except.error PyError.cv2Error
    | some frame => Except.ok (save_temp_image s tempName (hsvValueScale frame settings))

/-- Model of `ImageManager.set_saturation` (cv.py lines 113-138), identical
to `set_brightness` except that the saturation channel is scaled
(parameter `hsvSatScale`). -/
def set_saturation (hsvSatScale : Image → List Float → Image) (s : EngineState)
    (supported_files : List Path) (current_index : Nat)
    (settings : List Float) (tempName : Path) : Except PyError EngineState :=
  match supported_files.get? current_index with
  | none => Except.error PyError.indexError
  | some input_file =>
    match imread s.fs input_file with
    | none => Except.error PyError.cv2Error
    | some frame => Except.ok (save_temp_image s tempName (hsvSatScale frame settings))

/-- One 90-degree counter-clockwise rotation, as `np.rot90` performs it on a
rectangular matrix: transpose, then reverse the rows. -/
def rot90 (m : Image) : Image := m.transpose.reverse

/-- Model of `np.rot90(frame, k)` for `k ≥ 0`: `k` counter-clockwise quarter
turns. -/
def np_rot90 (m : Image) (k : Nat) : Image := rot90^[k] m

/-- Model of `ImageManager.set_rotate_90` (cv.py lines 140-166).  The
rotation count is a Python `int`, modelled as `Int`.  When the count is in
range the frame is rotated; otherwise the rotation is skipped with a logged
diagnostic but the frame — unrotated — is still staged and its path
returned.  On a `None` frame, the in-range branch raises inside `np.rot90`
and the out-of-range branch raises inside `cv2.imwrite(path, None)`. -/
def set_rotate_90 (s : EngineState) (supported_files : List Path) (current_index : Nat)
    (settings : Int) (tempName : Path) : Except PyError EngineState :=
  match supported_files.get? current_index with
  | none => Except.error PyError.indexError
  | some input_file =>
    let decoded := imread s.fs input_file
    let angle := settings
    if 0 < angle ∧ angle < 4 then
      match decoded with
      | none => Except.error PyError.npError
      | some frame => Except.ok (save_temp_image s tempName (np_rot90 frame angle.toNat))
    else
      match decoded with
      | none => Except.error PyError.cv2Error
      | some frame => Except.ok (save_temp_image s tempName frame)

/-- Model of `np.flipud`: reverse the rows (flip top-to-bottom). -/
def flipud (m : Image) : Image := m.reverse

/-- Model of `np.fliplr`: reverse each row (flip left-to-right). -/
def fliplr (m : Image) : Image := m.map List.reverse

/-- Model of `ImageManager.set_flip` (cv.py lines 168-196).  An axis other
than the strings `vertically` or `horizontally` is rejected before the frame
is touched: the function returns with nothing staged and the prior staged
slot intact. -/
def set_flip (s : EngineState) (supported_files : List Path) (current_index : Nat)
    (settings : List Char) (tempName : Path) : Except PyError EngineState :=
  match supported_files.get? current_index with
  | none => Except.error PyError.indexError
  | some input_file =>
    let decoded := imread s.fs input_file
    if settings = "vertically".toList then
      match decoded with
      | none => Except.error PyError.npError
      | some frame => Except.ok (save_temp_image s tempName (flipud frame))
    else if settings = "horizontally".toList then
      match decoded with
      | none => Except.error PyError.npError
      | some frame => Except.ok (save_temp_image s tempName (fliplr frame))
    else
      Except.ok s

/-- Model of `os.path.splitext` (posix): split a path into `(root, ext)`.
The extension starts at the last dot of the path, provided that dot lies in
the final path component (after the last `/`) and that the component has at
least one non-dot character before it (so a leading-dot file like `.bashrc`
has no extension).  Mirrors CPython `genericpath._splitext`, rephrased on the
reversed character list: `after` is the reversed text after the last dot,
`before` the reversed text before it. -/
def splitext (p : Path) : Path × Path :=
  if (p.reverse.takeWhile (fun c => c != '.')).length = p.reverse.length then
    (p, [])
  else if '/' ∈ p.reverse.takeWhile (fun c => c != '.') then
    (p, [])
  else if (((p.reverse.dropWhile (fun c => c != '.')).drop 1).takeWhile
      (fun c => c != '/')).all (fun c => c = '.') then
    (p, [])
  else
    (((p.reverse.dropWhile (fun c => c != '.')).drop 1).reverse,
      '.' :: (p.reverse.takeWhile (fun c => c != '.')).reverse)

/-- Directory part of a path: everything up to and including the last `/`
(empty when the path has no separator). -/
def dirname (p : Path) : Path := ((p.reverse).dropWhile (fun c => c != '/')).reverse

/-- The destination name `save_image` builds:
`splitext(src)[0] + '_' + timestamp + splitext(src)[1]`. -/
def destination_for (src ts : Path) : Path :=
  (splitext src).1 ++ ('_' :: ts) ++ (splitext src).2

/-- Outcome of `ImageManager.save_image`.  The first three constructors are
the logged-and-skipped precondition failures, in source order; `persistError`
is the caught `shutil.copyfile` failure; `saved` carries the destination
path. -/
inductive SaveResult
  | emptyDataset
  | indexOutOfRange
  | noStagedArtifact
  | persistError
  | saved (destination : Path)
deriving DecidableEq

/-- Model of `ImageManager.save_image` (cv.py lines 198-234).  The timestamp
`datetime.now().strftime("%Y%m%d_%H%M%S")` is passed in as `timestamp`.
`shutil.copyfile` copies the staged file's bytes to the destination; it fails
when the staged path has no file behind it. -/
def save_image (s : EngineState) (supported_files : List Path) (current_index : Nat)
    (timestamp : Path) : SaveResult × EngineState :=
  if supported_files.isEmpty then
    (SaveResult.emptyDataset, s)
  else if supported_files.length ≤ current_index then
    (SaveResult.indexOutOfRange, s)
  else
    match s.temp_file_path with
    | none => (SaveResult.noStagedArtifact, s)
    | some temp =>
      let current_image_path := supported_files.getD current_index []
      let destination_path :=
        (splitext current_image_path).1 ++ ('_' :: timestamp) ++ (splitext current_image_path).2
      match lookupFS s.fs temp with
      | some data =>
        (SaveResult.saved destination_path, { s with fs := (destination_path, data) :: s.fs })
      | none => (SaveResult.persistError, s)

/-- Navigation state of main.py: the class-level `MyAppButton.supported_files`
and `MyAppButton.current_index`. -/
structure NavState where
  supported_files : List Path
  current_index : Nat
deriving DecidableEq

/-- What a navigation action shows: `load_image(p)` or `load_none_image()`
(the "no image" sentinel). -/
inductive Display
  | image (p : Path)
  | noImage
deriving DecidableEq

/-- Model of `MyAppButton.next_action` (main.py lines 126-137): take the
shifted view `supported_files[1:]`; while the index is inside it, show the
element there and increment; otherwise show the sentinel and leave the state
alone. -/
def next_action (st : NavState) : NavState × Display :=
  let supported_list := st.supported_files.drop 1
  if h : st.current_index < supported_list.length then
    ({ st with current_index := st.current_index + 1 },
      Display.image (supported_list.get ⟨st.current_index, h⟩))
  else
    (st, Display.noImage)

/-- Model of `MyAppButton.prev_action` (main.py lines 139-149): when the
index is positive, decrement it and then subscript `supported_files` at the
decremented index — the Python class attribute is already mutated when the
subscript runs, so an out-of-range subscript raises after the decrement.
At index 0 the sentinel is shown and nothing is decremented. -/
def prev_action (st : NavState) : NavState × Except PyError Display :=
  if 0 < st.current_index then
    let st2 : NavState := { st with current_index := st.current_index - 1 }
    match st2.supported_files.get? st2.current_index with
    | some file_path => (st2, Except.ok (Display.image file_path))
    | none => (st2, Except.error PyError.indexError)
  else
    (st, Except.ok Display.noImage)

/-- One file yielded by the `os.walk` loop of `on_directory_chosen`, in walk
order, together with its `os.path.isfile` status. -/
structure WalkEntry where
  file_path : Path
  isfile : Bool
deriving DecidableEq

/-- Lower-cased extension of a path: `os.path.splitext(p)[1].lower()`. -/
def extLower (p : Path) : Path := ((splitext p).2).map Char.toLower

/-- The collection loop of `on_directory_chosen` (main.py lines 307-311):
keep each walked path that is a regular file and whose lower-cased extension
is a member of the allowlist, in walk order.  The allowlist entries are
compared verbatim. -/
def collect_supported (entries : List WalkEntry) (extensions : List Path) : List Path :=
  match entries with
  | [] => []
  | e :: rest =>
    if e.isfile = true ∧ extLower e.file_path ∈ extensions then
      e.file_path :: collect_supported rest extensions
    else
      collect_supported rest extensions

/-- Model of `MyAppButton.on_directory_chosen` (main.py lines 297-314):
replace the file set with the collected walk results and reset the index to
the configured initial value.  An empty result is not an error. -/
def on_directory_chosen (entries : List WalkEntry) (extensions : List Path)
    (initial_index : Nat) : NavState :=
  { supported_files := collect_supported entries extensions,
    current_index := initial_index }

/-- Modelled from the spec's words, for comparison with `collect_supported`:
a file is kept when its extension matches an allowlist entry
case-insensitively, i.e. both sides lower-cased. -/
def collect_case_insensitive (entries : List WalkEntry) (extensions : List Path) : List Path :=
  match entries with
  | [] => []
  | e :: rest =>
    if e.isfile = true ∧ ∃ a ∈ extensions, extLower e.file_path = a.map Char.toLower then
      e.file_path :: collect_case_insensitive rest extensions
    else
      collect_case_insensitive rest extensions

/-- Model of `MyAppButton.crop_action` composed with
`crop_button_callback` (main.py lines 160-164 and 336-347): the input fields
are labelled Top, Left, Bottom, Right in that order, and the resulting
integer list is handed to `set_cropped`, which destructures it as
`s_x, s_y, e_x, e_y`. -/
def crop_action (s : EngineState) (supported_files : List Path) (current_index : Nat)
    (top left bottom right : Nat) (tempName : Path) : Except PyError EngineState :=
  set_cropped s supported_files current_index (top, left, bottom, right) tempName

/-- Modelled from the spec's words, for comparison with `crop_action`: the
crop of `(top, left, bottom, right)` is valid iff
`0 <= left < right <= W` and `0 <= top < bottom <= H`. -/
def spec_crop_valid (W H top left bottom right : Nat) : Prop :=
  left < right ∧ right ≤ W ∧ top < bottom ∧ bottom ≤ H

/-- Modelled from the spec's words, for comparison with `crop_action`: a
valid crop produces the sub-rectangle `[top:bottom, left:right)` — rows
`top` to `bottom`, columns `left` to `right`. -/
def spec_crop_result (frame : Image) (top left bottom right : Nat) : Image :=
  cropSlice frame top bottom left right

/-- States reachable from `s` by any sequence of Next and Prev button
presses. -/
inductive NavReach : NavState → NavState → Prop
  | refl (s : NavState) : NavReach s s
  | next (s t : NavState) : NavReach s t → NavReach s (next_action t).1
  | prev (s t : NavState) : NavReach s t → NavReach s (prev_action t).1

/-! ## Theorems -/

/-- C1: `next_action` follows the shifted-view contract.  While the index is
inside the shifted view `supported_files[1:]`, it shows the shifted view's
element at the index and increments the index; otherwise it shows the
"no image" sentinel and leaves the state unchanged.  Every path it shows sits
at position `index + 1` of the full list, a position that is at least 1 — so
the element at position 0 is never shown by advancing — and in particular
advancing from index 0 shows the element at position 1. -/
theorem C1_advance_shifted_view (st : NavState) :
    (∀ h : st.current_index < (st.supported_files.drop 1).length,
      next_action st =
        ({ st with current_index := st.current_index + 1 },
          Display.image ((st.supported_files.drop 1).get ⟨st.current_index, h⟩))) ∧
    ((st.supported_files.drop 1).length ≤ st.current_index →
      next_action st = (st, Display.noImage)) ∧
    (∀ p, (next_action st).2 = Display.image p →
      st.supported_files.get? (st.current_index + 1) = some p ∧ 1 ≤ st.current_index + 1) ∧
    (st.current_index = 0 → ∀ h1 : 1 < st.supported_files.length,
      (next_action st).2 = Display.image (st.supported_files.get ⟨1, h1⟩)) := by
  refine ⟨fun h => ?_, fun h => ?_, fun p hp => ?_, fun h0 h1 => ?_⟩
  · simp only [next_action, dif_pos h]
  · simp only [next_action, dif_neg (Nat.not_lt.mpr h)]
  · by_cases h : st.current_index < (st.supported_files.drop 1).length
    · simp only [next_action, dif_pos h] at hp
      cases hp
      refine ⟨?_, Nat.le_add_left 1 _⟩
      rw [List.get?_eq_getElem?, Nat.add_comm st.current_index 1, ← List.getElem?_drop,
        List.get_eq_getElem, List.getElem?_eq_getElem]
    · simp only [next_action, dif_neg h] at hp
      exact absurd hp (by simp)
  · have hlt : st.current_index < (st.supported_files.drop 1).length := by
      rw [List.length_drop]; omega
    simp only [next_action, dif_pos hlt]
    congr 1
    rw [List.get_eq_getElem, List.get_eq_getElem, List.getElem_drop]
    simp only [h0, Nat.add_zero]

/-- C1 witness: advancing from index 0 on a two-element list shows the second
element and moves the index to 1. -/
theorem C1_advance_shifted_view_witness :
    next_action ⟨["a.jpg".toList, "b.jpg".toList], 0⟩ =
      (⟨["a.jpg".toList, "b.jpg".toList], 1⟩, Display.image ("b.jpg".toList)) := by
  have h := (C1_advance_shifted_view ⟨["a.jpg".toList, "b.jpg".toList], 0⟩).1 (by decide)
  exact h

/-- C2: the claim fails on the code.  `crop_action` hands the UI inputs to
`set_cropped` in the order Top, Left, Bottom, Right, but `set_cropped` reads
the list as `(s_x, s_y, e_x, e_y)`, so the roles of the coordinate pairs are
swapped.  On the 3x3 source image below, the parameters
`(top, left, bottom, right) = (0, 0, 1, 2)` are valid under the spec's
contract and should stage the 1x2 sub-rectangle `[[0, 1]]`; the code instead
validates the swapped bounds and stages the 2x1 sub-rectangle `[[0], [3]]`. -/
theorem C2_crop_parameter_swap :
    spec_crop_valid 3 3 0 0 1 2 ∧
    crop_action ⟨[("img.jpg".toList, FileData.img [[0, 1, 2], [3, 4, 5], [6, 7, 8]])], none⟩
        ["img.jpg".toList] 0 0 0 1 2 "t.jpg".toList =
      Except.ok (save_temp_image
        ⟨[("img.jpg".toList, FileData.img [[0, 1, 2], [3, 4, 5], [6, 7, 8]])], none⟩
        "t.jpg".toList [[0], [3]]) ∧
    spec_crop_result [[0, 1, 2], [3, 4, 5], [6, 7, 8]] 0 0 1 2 = [[0, 1]] ∧
    ([[0], [3]] : Image) ≠ spec_crop_result [[0, 1, 2], [3, 4, 5], [6, 7, 8]] 0 0 1 2 := by
  refine ⟨⟨by decide, by decide, by decide, by decide⟩, rfl, rfl, by decide⟩

/-- C3: for a decodable source, `set_rotate_90` with a count outside
{1, 2, 3} skips the rotation but still stages the unrotated frame at the
fresh temporary path — overwriting whatever the staged slot held — and for a
count in {1, 2, 3} it stages the frame rotated by 90 degrees that many
times.  In both cases the staged slot afterwards points at the new temporary
file. -/
theorem C3_rotate_out_of_range_still_stages (s : EngineState) (files : List Path)
    (idx : Nat) (input_file : Path) (frame : Image) (count : Int) (tmp : Path)
    (hfile : files.get? idx = some input_file)
    (hframe : imread s.fs input_file = some frame) :
    (count ≠ 1 → count ≠ 2 → count ≠ 3 →
      set_rotate_90 s files idx count tmp = Except.ok (save_temp_image s tmp frame)) ∧
    ((count = 1 ∨ count = 2 ∨ count = 3) →
      set_rotate_90 s files idx count tmp =
        Except.ok (save_temp_image s tmp (np_rot90 frame count.toNat))) ∧
    (save_temp_image s tmp frame).temp_file_path = some tmp := by
  refine ⟨fun h1 h2 h3 => ?_, fun h => ?_, rfl⟩
  · have hout : ¬ (0 < count ∧ count < 4) := by omega
    simp only [set_rotate_90, hfile, hframe, if_neg hout]
  · have hin : 0 < count ∧ count < 4 := by omega
    simp only [set_rotate_90, hfile, hframe, if_pos hin]

/-- C3 witness: on a concrete 2x2 image, count 5 stages the unrotated frame
and count 2 stages the 180-degree rotation. -/
theorem C3_rotate_out_of_range_still_stages_witness :
    set_rotate_90 ⟨[("i.jpg".toList, FileData.img [[1, 2], [3, 4]])], some ("old".toList)⟩
        ["i.jpg".toList] 0 5 "t.jpg".toList =
      Except.ok (save_temp_image
        ⟨[("i.jpg".toList, FileData.img [[1, 2], [3, 4]])], some ("old".toList)⟩
        "t.jpg".toList [[1, 2], [3, 4]]) ∧
    set_rotate_90 ⟨[("i.jpg".toList, FileData.img [[1, 2], [3, 4]])], some ("old".toList)⟩
        ["i.jpg".toList] 0 2 "t.jpg".toList =
      Except.ok (save_temp_image
        ⟨[("i.jpg".toList, FileData.img [[1, 2], [3, 4]])], some ("old".toList)⟩
        "t.jpg".toList (np_rot90 [[1, 2], [3, 4]] 2)) := by
  constructor
  · exact (C3_rotate_out_of_range_still_stages
      ⟨[("i.jpg".toList, FileData.img [[1, 2], [3, 4]])], some ("old".toList)⟩
      ["i.jpg".toList] 0 ("i.jpg".toList) [[1, 2], [3, 4]] 5 ("t.jpg".toList) rfl rfl).1
      (by decide) (by decide) (by decide)
  · exact (C3_rotate_out_of_range_still_stages
      ⟨[("i.jpg".toList, FileData.img [[1, 2], [3, 4]])], some ("old".toList)⟩
      ["i.jpg".toList] 0 ("i.jpg".toList) [[1, 2], [3, 4]] 2 ("t.jpg".toList) rfl rfl).2.1
      (Or.inr (Or.inl rfl))

/-- C6: the claim states the spec's requirement that a transform on an
undecodable source fail with an explicit DecodeError result; the code has no
such check and instead passes the `None` frame from `cv2.imread` into the
transform computation.  `set_cropped` evaluates `frame.shape[1]` on `None`
and raises `AttributeError`; `set_brightness` passes `None` to
`cv2.cvtColor` and raises `cv2.error`.  Neither is a DecodeError result —
no such result exists in the engine. -/
theorem C6_decode_failure_propagates_none :
    set_cropped ⟨[], none⟩ ["missing.jpg".toList] 0 (0, 0, 1, 1) "t.jpg".toList =
      Except.error PyError.attributeError ∧
    set_brightness (fun f _ => f) ⟨[("bad.jpg".toList, FileData.corrupt)], none⟩
        ["bad.jpg".toList] 0 [] "t.jpg".toList =
      Except.error PyError.cv2Error := by
  exact ⟨rfl, rfl⟩

/-- C9: for a decodable source, `set_flip` with an axis that is neither
`vertically` nor `horizontally` returns with nothing staged: the engine state
— including whatever staged artifact was there before — is exactly as it
was.  Axis `vertically` stages the source flipped top-to-bottom, and
`horizontally` stages it flipped left-to-right. -/
theorem C9_flip_invalid_axis_no_op (s : EngineState) (files : List Path) (idx : Nat)
    (input_file : Path) (frame : Image) (ax : List Char) (tmp : Path)
    (hfile : files.get? idx = some input_file)
    (hframe : imread s.fs input_file = some frame) :
    (ax ≠ "vertically".toList → ax ≠ "horizontally".toList →
      set_flip s files idx ax tmp = Except.ok s) ∧
    (ax = "vertically".toList →
      set_flip s files idx ax tmp = Except.ok (save_temp_image s tmp (flipud frame))) ∧
    (ax = "horizontally".toList →
      set_flip s files idx ax tmp = Except.ok (save_temp_image s tmp (fliplr frame))) := by
  refine ⟨fun h1 h2 => ?_, fun h => ?_, fun h => ?_⟩
  · simp only [set_flip, hfile, hframe, if_neg h1, if_neg h2]
  · simp only [set_flip, hfile, hframe, if_pos h]
  · have h2 : ax ≠ "vertically".toList := by rw [h]; decide
    simp only [set_flip, hfile, hframe, if_neg h2, if_pos h]

/-- C9 witness: on a concrete image with a previously staged artifact, an
invalid axis leaves the state untouched, and the two valid axes stage the
two flips. -/
theorem C9_flip_invalid_axis_no_op_witness :
    set_flip ⟨[("i.jpg".toList, FileData.img [[1, 2], [3, 4]])], some ("old".toList)⟩
        ["i.jpg".toList] 0 "diagonally".toList "t.jpg".toList =
      Except.ok ⟨[("i.jpg".toList, FileData.img [[1, 2], [3, 4]])], some ("old".toList)⟩ ∧
    set_flip ⟨[("i.jpg".toList, FileData.img [[1, 2], [3, 4]])], some ("old".toList)⟩
        ["i.jpg".toList] 0 "vertically".toList "t.jpg".toList =
      Except.ok (save_temp_image
        ⟨[("i.jpg".toList, FileData.img [[1, 2], [3, 4]])], some ("old".toList)⟩
        "t.jpg".toList (flipud [[1, 2], [3, 4]])) ∧
    set_flip ⟨[("i.jpg".toList, FileData.img [[1, 2], [3, 4]])], some ("old".toList)⟩
        ["i.jpg".toList] 0 "horizontally".toList "t.jpg".toList =
      Except.ok (save_temp_image
        ⟨[("i.jpg".toList, FileData.img [[1, 2], [3, 4]])], some ("old".toList)⟩
        "t.jpg".toList (fliplr [[1, 2], [3, 4]])) := by
  refine ⟨?_, ?_, ?_⟩
  · exact (C9_flip_invalid_axis_no_op
      ⟨[("i.jpg".toList, FileData.img [[1, 2], [3, 4]])], some ("old".toList)⟩
      ["i.jpg".toList] 0 ("i.jpg".toList) [[1, 2], [3, 4]] ("diagonally".toList)
      ("t.jpg".toList) rfl rfl).1 (by decide) (by decide)
  · exact (C9_flip_invalid_axis_no_op
      ⟨[("i.jpg".toList, FileData.img [[1, 2], [3, 4]])], some ("old".toList)⟩
      ["i.jpg".toList] 0 ("i.jpg".toList) [[1, 2], [3, 4]] ("vertically".toList)
      ("t.jpg".toList) rfl rfl).2.1 rfl
  · exact (C9_flip_invalid_axis_no_op
      ⟨[("i.jpg".toList, FileData.img [[1, 2], [3, 4]])], some ("old".toList)⟩
      ["i.jpg".toList] 0 ("i.jpg".toList) [[1, 2], [3, 4]] ("horizontally".toList)
      ("t.jpg".toList) rfl rfl).2.2 rfl

/-- C10: none of the six transform entry points guards its subscript of the
file list: whenever the index is at or past the length of the list — which
covers every index when the list is empty — each raises IndexError before
doing anything else.  `save_image`, by contrast, handles the same situation
as a logged no-op: it returns the empty-dataset or index-out-of-range result
and leaves the state unchanged. -/
theorem C10_transforms_unguarded_index (cv2resize : Image → Nat → Nat → Image)
    (hsvValueScale hsvSatScale : Image → List Float → Image) (s : EngineState)
    (files : List Path) (idx : Nat) (cropSettings : Nat × Nat × Nat × Nat)
    (resizeSettings : Nat × Nat) (brtSettings satSettings : List Float)
    (rotCount : Int) (ax : List Char) (tmp ts : Path)
    (h : files.length ≤ idx) :
    set_cropped s files idx cropSettings tmp = Except.error PyError.indexError ∧
    set_resize cv2resize s files idx resizeSettings tmp = Except.error PyError.indexError ∧
    set_brightness hsvValueScale s files idx brtSettings tmp =
      Except.error PyError.indexError ∧
    set_saturation hsvSatScale s files idx satSettings tmp =
      Except.error PyError.indexError ∧
    set_rotate_90 s files idx rotCount tmp = Except.error PyError.indexError ∧
    set_flip s files idx ax tmp = Except.error PyError.indexError ∧
    (save_image s files idx ts).2 = s ∧
    ((save_image s files idx ts).1 = SaveResult.emptyDataset ∨
      (save_image s files idx ts).1 = SaveResult.indexOutOfRange) := by
  have hnone : files.get? idx = none := List.get?_eq_none.mpr h
  refine ⟨?_, ?_, ?_, ?_, ?_, ?_, ?_, ?_⟩
  · simp only [set_cropped, hnone]
  · simp only [set_resize, hnone]
  · simp only [set_brightness, hnone]
  · simp only [set_saturation, hnone]
  · simp only [set_rotate_90, hnone]
  · simp only [set_flip, hnone]
  · unfold save_image
    by_cases he : files.isEmpty
    · simp [he]
    · simp [he, if_pos h]
  · unfold save_image
    by_cases he : files.isEmpty
    · simp [he]
    · simp [he, if_pos h]

/-- C10 witness: with an empty file list, every transform raises IndexError
at index 0 while save is a handled no-op. -/
theorem C10_transforms_unguarded_index_witness :
    set_cropped ⟨[], none⟩ [] 0 (0, 0, 1, 1) "t.jpg".toList =
      Except.error PyError.indexError ∧
    set_resize (fun f _ _ => f) ⟨[], none⟩ [] 0 (1, 1) "t.jpg".toList =
      Except.error PyError.indexError ∧
    set_brightness (fun f _ => f) ⟨[], none⟩ [] 0 [] "t.jpg".toList =
      Except.error PyError.indexError ∧
    set_saturation (fun f _ => f) ⟨[], none⟩ [] 0 [] "t.jpg".toList =
      Except.error PyError.indexError ∧
    set_rotate_90 ⟨[], none⟩ [] 0 1 "t.jpg".toList = Except.error PyError.indexError ∧
    set_flip ⟨[], none⟩ [] 0 "vertically".toList "t.jpg".toList =
      Except.error PyError.indexError ∧
    (save_image ⟨[], none⟩ [] 0 [] ).2 = ⟨[], none⟩ ∧
    ((save_image ⟨[], none⟩ [] 0 []).1 = SaveResult.emptyDataset ∨
      (save_image ⟨[], none⟩ [] 0 []).1 = SaveResult.indexOutOfRange) := by
  exact C10_transforms_unguarded_index (fun f _ _ => f) (fun f _ => f) (fun f _ => f)
    ⟨[], none⟩ [] 0 (0, 0, 1, 1) (1, 1) [] [] 1 ("vertically".toList)
    ("t.jpg".toList) [] (Nat.le_refl 0)

/-- C4: the save precondition cascade.  `save_image` fails with the
empty-dataset result exactly when the file list is empty; with the
index-out-of-range result exactly when the list is non-empty and the index is
at or past its length; and with the no-staged-artifact result exactly when
the list and index are fine but nothing has been staged.  In each failure
case the returned state is the input state unchanged — no destination file is
created. -/
theorem C4_save_precondition_guards (s : EngineState) (files : List Path) (idx : Nat)
    (ts : Path) :
    (save_image s files idx ts = (SaveResult.emptyDataset, s) ↔ files = []) ∧
    (save_image s files idx ts = (SaveResult.indexOutOfRange, s) ↔
      files ≠ [] ∧ files.length ≤ idx) ∧
    (save_image s files idx ts = (SaveResult.noStagedArtifact, s) ↔
      files ≠ [] ∧ idx < files.length ∧ s.temp_file_path = none) := by
  unfold save_image
  by_cases he : files.isEmpty
  · have hnil : files = [] := by simpa [List.isEmpty_iff] using he
    subst hnil
    simp
  · have hne : files ≠ [] := by simpa [List.isEmpty_iff] using he
    by_cases hidx : files.length ≤ idx
    · simp [he, hidx, hne, Nat.not_lt.mpr hidx]
    · cases hmgr : s.temp_file_path with
      | none => simp [he, hidx, hne, hmgr, Nat.lt_of_not_le hidx]
      | some temp =>
        cases hl : lookupFS s.fs temp with
        | some d => simp [he, hidx, hne, hmgr, hl]
        | none => simp [he, hidx, hne, hmgr, hl]

/-- C4 witness: the three failure cases at concrete inputs. -/
theorem C4_save_precondition_guards_witness :
    save_image ⟨[], none⟩ [] 0 [] = (SaveResult.emptyDataset, ⟨[], none⟩) ∧
    save_image ⟨[], none⟩ ["a.jpg".toList] 1 [] =
      (SaveResult.indexOutOfRange, ⟨[], none⟩) ∧
    save_image ⟨[], none⟩ ["a.jpg".toList] 0 [] =
      (SaveResult.noStagedArtifact, ⟨[], none⟩) := by
  refine ⟨(C4_save_precondition_guards ⟨[], none⟩ [] 0 []).1.mpr rfl,
    (C4_save_precondition_guards ⟨[], none⟩ ["a.jpg".toList] 1 []).2.1.mpr
      ⟨by decide, by decide⟩,
    (C4_save_precondition_guards ⟨[], none⟩ ["a.jpg".toList] 0 []).2.2.mpr
      ⟨by decide, by decide, rfl⟩⟩

/-- Over any sequence of Next and Prev presses the file list never changes,
and the index never exceeds the larger of its starting value and
`length - 1`: `next_action` increments only while the index is strictly
below the shifted view's length `length - 1`, and `prev_action` only
decrements. -/
theorem nav_reach_bound (s t : NavState) (h : NavReach s t) :
    t.supported_files = s.supported_files ∧
    t.current_index ≤ max s.current_index (s.supported_files.length - 1) := by
  induction h with
  | refl => exact ⟨rfl, Nat.le_max_left _ _⟩
  | next u hu ih =>
    obtain ⟨hf, hi⟩ := ih
    by_cases hlt : u.current_index < (u.supported_files.drop 1).length
    · simp only [next_action, dif_pos hlt]
      refine ⟨hf, ?_⟩
      rw [List.length_drop, hf] at hlt
      have hmax := Nat.le_max_right s.current_index (s.supported_files.length - 1)
      omega
    · simp only [next_action, dif_neg hlt]
      exact ⟨hf, hi⟩
  | prev u hu ih =>
    obtain ⟨hf, hi⟩ := ih
    by_cases hpos : 0 < u.current_index
    · simp only [prev_action, if_pos hpos]
      cases hget : u.supported_files.get? (u.current_index - 1) with
      | some p => simp only [hget]; exact ⟨hf, by omega⟩
      | none => simp only [hget]; exact ⟨hf, by omega⟩
    · simp only [prev_action, if_neg hpos]
      exact ⟨hf, hi⟩

/-- C7 counterexample: with a two-element file list and starting index 0, no
sequence of Next and Prev presses ever brings the index to
`len(paths) = 2` — `next_action` stops incrementing at `len(paths) - 1`, so
the exhausted value `len(paths)` is not reachable via forward navigation,
contrary to the claim. -/
theorem C7_exhausted_index_unreachable :
    ¬ ∃ t : NavState, NavReach ⟨["a.jpg".toList, "b.jpg".toList], 0⟩ t ∧
      t.current_index = (["a.jpg".toList, "b.jpg".toList] : List Path).length := by
  rintro ⟨t, hr, hi⟩
  have hb := (nav_reach_bound _ _ hr).2
  simp only [List.length_cons, List.length_nil] at hb hi
  omega

/-- C7 (amended): starting from a non-empty list with index at most
`length - 1`, every state reachable by Next and Prev presses keeps the same
file list and an index within `0 ≤ index ≤ length - 1` — hence within the
claimed `0 ≤ index ≤ length`, except that the exhausted value `length` is
never actually reached: forward navigation tops out at `length - 1`.
Retreat at index 0 shows the sentinel without decrementing, advance at or
past the end of the shifted view shows the sentinel without moving or
raising, and retreat never raises. -/
theorem C7_navigation_invariant (paths : List Path) (i0 : Nat) (t : NavState)
    (hne : paths ≠ []) (h0 : i0 ≤ paths.length - 1)
    (hr : NavReach ⟨paths, i0⟩ t) :
    t.supported_files = paths ∧
    t.current_index ≤ paths.length - 1 ∧
    t.current_index ≤ paths.length ∧
    t.current_index ≠ paths.length ∧
    (t.current_index = 0 → prev_action t = (t, Except.ok Display.noImage)) ∧
    ((paths.drop 1).length ≤ t.current_index → next_action t = (t, Display.noImage)) ∧
    (∀ e : PyError, (prev_action t).2 ≠ Except.error e) := by
  obtain ⟨hf, hb⟩ := nav_reach_bound _ _ hr
  simp only at hf hb
  have hlen : 0 < paths.length := List.length_pos.mpr hne
  have hmax : max i0 (paths.length - 1) ≤ paths.length - 1 :=
    Nat.max_le.mpr ⟨h0, Nat.le_refl _⟩
  have hidx : t.current_index ≤ paths.length - 1 := le_trans hb hmax
  refine ⟨hf, hidx, by omega, by omega, fun hz => ?_, fun hle => ?_, fun e => ?_⟩
  · have hnp : ¬ 0 < t.current_index := by omega
    simp only [prev_action, if_neg hnp]
  · have hnl : ¬ t.current_index < (t.supported_files.drop 1).length := by
      rw [hf, List.length_drop]
      rw [List.length_drop] at hle
      omega
    simp only [next_action, dif_neg hnl]
  · by_cases hpos : 0 < t.current_index
    · have hlt : t.current_index - 1 < t.supported_files.length := by
        rw [hf]; omega
      simp only [prev_action, if_pos hpos, List.get?_eq_get hlt]
      simp
    · simp only [prev_action, if_neg hpos]
      simp

/-- C7 witness: on a concrete two-element list, one Next press reaches index
1 which is within the bound, and Prev at index 0 shows the sentinel without
decrementing. -/
theorem C7_navigation_invariant_witness :
    (⟨["a.jpg".toList, "b.jpg".toList], 1⟩ : NavState).current_index ≤
      (["a.jpg".toList, "b.jpg".toList] : List Path).length - 1 ∧
    prev_action ⟨["a.jpg".toList, "b.jpg".toList], 0⟩ =
      (⟨["a.jpg".toList, "b.jpg".toList], 0⟩, Except.ok Display.noImage) := by
  have h1 := C7_navigation_invariant (["a.jpg".toList, "b.jpg".toList]) 0
    ⟨["a.jpg".toList, "b.jpg".toList], 1⟩ (by decide) (by decide)
    (NavReach.next _ _ (NavReach.refl _))
  have h0 := C7_navigation_invariant (["a.jpg".toList, "b.jpg".toList]) 0
    ⟨["a.jpg".toList, "b.jpg".toList], 0⟩ (by decide) (by decide) (NavReach.refl _)
  exact ⟨h1.2.1, h0.2.2.2.2.1 rfl⟩

/-- Membership in the collected file set of the directory scan: a path is
kept exactly when it occurs among the walked entries as a regular file and
its lower-cased extension is verbatim in the allowlist. -/
theorem mem_collect_supported (entries : List WalkEntry) (extensions : List Path)
    (p : Path) :
    p ∈ collect_supported entries extensions ↔
      ∃ e ∈ entries, e.file_path = p ∧ e.isfile = true ∧ extLower p ∈ extensions := by
  induction entries with
  | nil => simp [collect_supported]
  | cons e rest ih =>
    unfold collect_supported
    by_cases hc : e.isfile = true ∧ extLower e.file_path ∈ extensions
    · rw [if_pos hc]
      constructor
      · intro hp
        rcases List.mem_cons.mp hp with rfl | hp2
        · exact ⟨e, List.mem_cons_self _ _, rfl, hc.1, hc.2⟩
        · obtain ⟨e2, he2, hpe, hfe, hxe⟩ := ih.mp hp2
          exact ⟨e2, List.mem_cons_of_mem _ he2, hpe, hfe, hxe⟩
      · rintro ⟨e2, he2, rfl, hfe, hxe⟩
        rcases List.mem_cons.mp he2 with rfl | h2
        · exact List.mem_cons_self _ _
        · exact List.mem_cons_of_mem _ (ih.mpr ⟨e2, h2, rfl, hfe, hxe⟩)
    · rw [if_neg hc, ih]
      constructor
      · rintro ⟨e2, he2, hpe, hfe, hxe⟩
        exact ⟨e2, List.mem_cons_of_mem _ he2, hpe, hfe, hxe⟩
      · rintro ⟨e2, he2, rfl, hfe, hxe⟩
        rcases List.mem_cons.mp he2 with rfl | h2
        · exact absurd ⟨hfe, hxe⟩ hc
        · exact ⟨e2, h2, rfl, hfe, hxe⟩

/-- The collected file set is a subsequence of the walked paths: walk order
is preserved. -/
theorem collect_supported_sublist (entries : List WalkEntry) (extensions : List Path) :
    (collect_supported entries extensions).Sublist (entries.map WalkEntry.file_path) := by
  induction entries with
  | nil => simp [collect_supported]
  | cons e rest ih =>
    unfold collect_supported
    by_cases hc : e.isfile = true ∧ extLower e.file_path ∈ extensions
    · rw [if_pos hc, List.map_cons]
      exact List.Sublist.cons₂ _ ih
    · rw [if_neg hc, List.map_cons]
      exact List.Sublist.cons _ ih

/-- C8 counterexample: the code lower-cases only the file's extension and
compares it verbatim against the allowlist, so with the upper-case allowlist
entry `.JPG` the file `a.JPG` — which matches case-insensitively — is
excluded, while the claim's case-insensitive selection keeps it. -/
theorem C8_allowlist_case_sensitivity :
    (on_directory_chosen [⟨"a.JPG".toList, true⟩] [".JPG".toList] 0).supported_files
      = [] ∧
    collect_case_insensitive [⟨"a.JPG".toList, true⟩] [".JPG".toList]
      = ["a.JPG".toList] := by
  exact ⟨by decide, by decide⟩

/-- C8 (amended): `on_directory_chosen` replaces the file set with exactly
the walked regular files whose lower-cased extension appears verbatim in the
allowlist — case-insensitive in the file's extension but case-sensitive in
the allowlist entries — in walk order, resets the index to the configured
initial value, and yields an empty file set, without error, when nothing
matches. -/
theorem C8_directory_scan (entries : List WalkEntry) (extensions : List Path)
    (initial_index : Nat) :
    (on_directory_chosen entries extensions initial_index).current_index =
      initial_index ∧
    (∀ p, p ∈ (on_directory_chosen entries extensions initial_index).supported_files ↔
      ∃ e ∈ entries, e.file_path = p ∧ e.isfile = true ∧ extLower p ∈ extensions) ∧
    ((on_directory_chosen entries extensions initial_index).supported_files).Sublist
      (entries.map WalkEntry.file_path) ∧
    ((∀ e ∈ entries, ¬ (e.isfile = true ∧ extLower e.file_path ∈ extensions)) →
      (on_directory_chosen entries extensions initial_index).supported_files = []) := by
  refine ⟨rfl, fun p => mem_collect_supported _ _ _, collect_supported_sublist _ _,
    fun hnone => ?_⟩
  rw [List.eq_nil_iff_forall_not_mem]
  intro p hp
  obtain ⟨e, he, rfl, hfe, hxe⟩ := (mem_collect_supported entries extensions p).mp hp
  exact hnone e he ⟨hfe, hxe⟩

/-- C8 witness: the spec's scenario — a directory with `a.jpg`, `b.png`,
`c.txt` and allowlist `.jpg`, `.png` yields exactly `a.jpg, b.png` in walk
order with `c.txt` excluded, and the index reset to 0. -/
theorem C8_directory_scan_witness :
    (on_directory_chosen [⟨"/r/a.jpg".toList, true⟩, ⟨"/r/b.png".toList, true⟩,
        ⟨"/r/c.txt".toList, true⟩] [".jpg".toList, ".png".toList] 0).current_index = 0 ∧
    "/r/c.txt".toList ∉ (on_directory_chosen [⟨"/r/a.jpg".toList, true⟩,
        ⟨"/r/b.png".toList, true⟩, ⟨"/r/c.txt".toList, true⟩]
        [".jpg".toList, ".png".toList] 0).supported_files ∧
    (on_directory_chosen [⟨"/r/a.jpg".toList, true⟩, ⟨"/r/b.png".toList, true⟩,
        ⟨"/r/c.txt".toList, true⟩] [".jpg".toList, ".png".toList] 0).supported_files =
      ["/r/a.jpg".toList, "/r/b.png".toList] := by
  refine ⟨(C8_directory_scan _ _ _).1, fun hmem => ?_, by decide⟩
  obtain ⟨e, he, hpe, hfe, hxe⟩ := ((C8_directory_scan _ _ _).2.1 _).mp hmem
  exact absurd hxe (by decide)

/-- Splitting a path into root and extension and re-concatenating recovers
the path. -/
theorem splitext_concat (p : Path) : (splitext p).1 ++ (splitext p).2 = p := by
  unfold splitext
  by_cases h1 : (p.reverse.takeWhile (fun c => c != '.')).length = p.reverse.length
  · rw [if_pos h1]
    simp
  · by_cases h2 : '/' ∈ p.reverse.takeWhile (fun c => c != '.')
    · rw [if_neg h1, if_pos h2]
      simp
    · by_cases h3 : (((p.reverse.dropWhile (fun c => c != '.')).drop 1).takeWhile
          (fun c => c != '/')).all (fun c => c = '.')
      · rw [if_neg h1, if_neg h2, if_pos h3]
        simp
      · rw [if_neg h1, if_neg h2, if_neg h3]
        have hne : p.reverse.dropWhile (fun c => c != '.') ≠ [] := by
          intro hnil
          apply h1
          have hsum := List.takeWhile_append_dropWhile (fun c => c != '.') p.reverse
          rw [hnil, List.append_nil] at hsum
          rw [hsum]
        have hhead : (p.reverse.dropWhile (fun c => c != '.')).head hne = '.' := by
          have hh := List.head_dropWhile_not (fun c => c != '.') p.reverse hne
          simpa using hh
        have hcons : p.reverse.dropWhile (fun c => c != '.') =
            '.' :: ((p.reverse.dropWhile (fun c => c != '.')).drop 1) := by
          conv_lhs => rw [← List.head_cons_tail _ hne]
          rw [hhead, List.drop_one]
        have hsplit : p.reverse.takeWhile (fun c => c != '.') ++
            '.' :: ((p.reverse.dropWhile (fun c => c != '.')).drop 1) = p.reverse := by
          rw [← hcons]
          exact List.takeWhile_append_dropWhile _ _
        calc ((p.reverse.dropWhile (fun c => c != '.')).drop 1).reverse ++
              '.' :: (p.reverse.takeWhile (fun c => c != '.')).reverse
            = (p.reverse.takeWhile (fun c => c != '.') ++
                '.' :: ((p.reverse.dropWhile (fun c => c != '.')).drop 1)).reverse := by
              simp [List.reverse_append]
          _ = p.reverse.reverse := by rw [hsplit]
          _ = p := List.reverse_reverse p

/-- The extension produced by `splitext` never contains a path separator. -/
theorem slash_not_mem_splitext_snd (p : Path) : '/' ∉ (splitext p).2 := by
  unfold splitext
  by_cases h1 : (p.reverse.takeWhile (fun c => c != '.')).length = p.reverse.length
  · rw [if_pos h1]
    simp
  · by_cases h2 : '/' ∈ p.reverse.takeWhile (fun c => c != '.')
    · rw [if_neg h1, if_pos h2]
      simp
    · by_cases h3 : (((p.reverse.dropWhile (fun c => c != '.')).drop 1).takeWhile
          (fun c => c != '/')).all (fun c => c = '.')
      · rw [if_neg h1, if_neg h2, if_pos h3]
        simp
      · rw [if_neg h1, if_neg h2, if_neg h3]
        simp only [List.mem_cons, List.mem_reverse]
        rintro (hdot | hmem)
        · exact absurd hdot (by decide)
        · exact h2 hmem

/-- Appending separator-free text to a path does not change its directory
part. -/
theorem dirname_append (a b : Path) (h : '/' ∉ b) : dirname (a ++ b) = dirname a := by
  have hall : ∀ c ∈ b.reverse, (fun c => c != '/') c = true := by
    intro c hc
    rw [List.mem_reverse] at hc
    simp only [bne_iff_ne, ne_eq]
    rintro rfl
    exact h hc
  unfold dirname
  rw [List.reverse_append, List.dropWhile_append_of_pos hall]

/-- The saved file lands in the same directory as its source: the timestamped
destination has the same directory part, provided the timestamp text has no
separator. -/
theorem dirname_destination_for (src ts : Path) (hts : '/' ∉ ts) :
    dirname (destination_for src ts) = dirname src := by
  have hext : '/' ∉ (splitext src).2 := slash_not_mem_splitext_snd src
  have hmid : '/' ∉ ('_' :: ts) ++ (splitext src).2 := by
    simp only [List.mem_append, List.mem_cons]
    rintro ((hu | hin) | hin)
    · exact absurd hu (by decide)
    · exact hts hin
    · exact hext hin
  unfold destination_for
  rw [List.append_assoc, dirname_append _ _ hmid]
  conv_rhs => rw [← splitext_concat src]
  rw [dirname_append _ _ hext]

/-- The timestamped destination is strictly longer than the source path, so
they never coincide. -/
theorem destination_for_ne (src ts : Path) : destination_for src ts ≠ src := by
  intro h
  have hlen := congrArg List.length h
  unfold destination_for at hlen
  have hc := congrArg List.length (splitext_concat src)
  simp only [List.length_append, List.length_cons] at hlen hc
  omega

/-- C5: a successful save copies the staged artifact's bytes to a new file
whose name is the source's stem, an underscore, the timestamp, and the
source's original extension, in the source's directory.  The staged slot,
the staged temporary file and the original source entry are all left
unchanged, so the same staged artifact can be saved again — any later
timestamp yields another saved destination. -/
theorem C5_save_destination (s : EngineState) (files : List Path) (idx : Nat)
    (src temp : Path) (data : FileData) (ts : Path)
    (hsrc : files.get? idx = some src)
    (htemp : s.temp_file_path = some temp)
    (hdata : lookupFS s.fs temp = some data)
    (hts : '/' ∉ ts)
    (htd : temp ≠ destination_for src ts) :
    save_image s files idx ts =
      (SaveResult.saved (destination_for src ts),
        { s with fs := (destination_for src ts, data) :: s.fs }) ∧
    destination_for src ts = (splitext src).1 ++ ('_' :: ts) ++ (splitext src).2 ∧
    dirname (destination_for src ts) = dirname src ∧
    ({ s with fs := (destination_for src ts, data) :: s.fs }).temp_file_path =
      s.temp_file_path ∧
    lookupFS ((destination_for src ts, data) :: s.fs) (destination_for src ts) =
      some data ∧
    lookupFS ((destination_for src ts, data) :: s.fs) temp = lookupFS s.fs temp ∧
    lookupFS ((destination_for src ts, data) :: s.fs) src = lookupFS s.fs src ∧
    (∀ ts2 : Path, temp ≠ destination_for src ts2 →
      (save_image { s with fs := (destination_for src ts, data) :: s.fs }
          files idx ts2).1 = SaveResult.saved (destination_for src ts2)) := by
  have hlt : idx < files.length := (List.get?_eq_some.mp hsrc).1
  have hne : files ≠ [] := by
    intro hnil
    subst hnil
    simp at hlt
  have hemp : files.isEmpty = false := by
    simpa [List.isEmpty_iff] using hne
  have hnle : ¬ files.length ≤ idx := Nat.not_le.mpr hlt
  have hgetD : files.getD idx [] = src := by
    rw [List.getD_eq_getElem?_getD, ← List.get?_eq_getElem?, hsrc]
    rfl
  refine ⟨?_, rfl, dirname_destination_for src ts hts, rfl, ?_, ?_, ?_, ?_⟩
  · unfold save_image
    rw [hemp]
    simp only [Bool.false_eq_true, if_false, if_neg hnle, htemp, hgetD, hdata]
    rfl
  · simp [lookupFS]
  · simp [lookupFS, htd]
  · have hds : src ≠ destination_for src ts := fun h => destination_for_ne src ts h.symm
    simp [lookupFS, hds]
  · intro ts2 htd2
    unfold save_image
    rw [hemp]
    have hl2 : lookupFS ((destination_for src ts, data) :: s.fs) temp =
        some data := by
      simp [lookupFS, htd]
      exact hdata
    simp only [Bool.false_eq_true, if_false, if_neg hnle, htemp, hgetD, hl2]
    rfl

/-- C5 witness: saving a staged 1x1 artifact for the source `/d/a.jpg` with
timestamp `20250101_000000` creates `/d/a_20250101_000000.jpg` with the
staged bytes, in the source's directory, leaving the staged slot and both
existing files untouched. -/
theorem C5_save_destination_witness :
    save_image ⟨[("/d/a.jpg".toList, FileData.img [[7]]),
        ("/tmp/t.jpg".toList, FileData.img [[9]])], some ("/tmp/t.jpg".toList)⟩
      ["/d/a.jpg".toList] 0 ("20250101_000000".toList) =
      (SaveResult.saved ("/d/a_20250101_000000.jpg".toList),
        ⟨[("/d/a_20250101_000000.jpg".toList, FileData.img [[9]]),
          ("/d/a.jpg".toList, FileData.img [[7]]),
          ("/tmp/t.jpg".toList, FileData.img [[9]])], some ("/tmp/t.jpg".toList)⟩) ∧
    dirname ("/d/a_20250101_000000.jpg".toList) = dirname ("/d/a.jpg".toList) := by
  have h := C5_save_destination
    ⟨[("/d/a.jpg".toList, FileData.img [[7]]),
      ("/tmp/t.jpg".toList, FileData.img [[9]])], some ("/tmp/t.jpg".toList)⟩
    ["/d/a.jpg".toList] 0 ("/d/a.jpg".toList) ("/tmp/t.jpg".toList)
    (FileData.img [[9]]) ("20250101_000000".toList)
    rfl rfl (by decide) (by decide) (by decide)
  exact ⟨h.1, h.2.2.1⟩

end CvTool
